import Mathlib

/-!
# Shallow embedding of the FreeNOS generic kernel core (src/kernel/Kernel.h)

The repository ships only the declaration file `src/kernel/Kernel.h` for this
component: the class `Kernel`, the `InterruptHook` structure, the `Result`
enumeration, and the method signatures.  The method bodies live outside the
sources provided, so every operation below whose body is absent is modelled
from the specification and carries a doc comment starting
`Modelled from the spec:` naming what is missing.

Modelling conventions:
* machine pointers (handler function pointers, `CPUState *`, collaborator
  handles such as `SplitAllocator *`) are modelled by their identity as
  natural numbers;
* `ulong`, `u32`, `Address`, `Size` are modelled as `Nat`;
* handler invocation is observable only through a trace: executing a vector
  returns the ordered list of `(handler, param, state)` invocation events
  together with the resulting kernel state;
* boot-image loading returns the result code, the ordered list of
  process-creation requests issued to the process manager, and the ordered
  list of descriptor indices on which `loadBootProcess` was invoked.
-/

/-- CPU state pointer (`struct CPUState *`, Kernel.h line 33): modelled by its
identity as a natural number. -/
abbrev CPUState := Nat

/-- An `InterruptHandler` (Kernel.h line 45) is a function pointer; we model
it by its pointer identity. -/
abbrev InterruptHandler := Nat

/-- Interrupt hook: handler plus parameter (Kernel.h lines 50-77). -/
structure InterruptHook where
  handler : InterruptHandler
  param : Nat
deriving DecidableEq, Repr

/-- The comparison `InterruptHook::operator==` (Kernel.h lines 66-69): true
iff both the handler and the parameter are equal. -/
def InterruptHook.eq (a b : InterruptHook) : Bool :=
  a.handler == b.handler && a.param == b.param

/-- One observable handler invocation performed by `executeIntVector`: the
handler invoked, the parameter passed, and the CPU state passed. -/
structure Invocation where
  handler : InterruptHandler
  param : Nat
  state : CPUState
deriving DecidableEq, Repr

/-- The `Kernel` object state (Kernel.h lines 87-211): collaborator handles
`m_alloc`, `m_procs`, `m_api`, `m_intControl` (modelled by pointer identity)
and the interrupt hook table `m_interrupts` (Kernel.h line 207), a
fixed-length array indexed by vector number whose slots hold the ordered
sequence of registered hooks. -/
structure Kernel where
  m_alloc : Nat
  m_procs : Nat
  m_api : Nat
  m_interrupts : List (List InterruptHook)
  m_intControl : Nat
deriving DecidableEq, Repr

/-- The result codes `Kernel::Result` (Kernel.h lines 94-99): a plain C++
enumeration `{ Success, InvalidBootImage, ProcessError }`. -/
inductive Kernel.Result where
  | Success
  | InvalidBootImage
  | ProcessError
deriving DecidableEq, Repr

/-- The integer value C++ assigns to each enumerator of `Kernel::Result`
(Kernel.h lines 94-99): no explicit initializers appear, so the values are
consecutive from zero. -/
def Kernel.Result.toNat : Kernel.Result → Nat
  | .Success => 0
  | .InvalidBootImage => 1
  | .ProcessError => 2

/-- The architecture's interrupt vector count is the length of the hook
table (spec §3: "length fixed at construction to the architecture's hardware
vector count"). -/
def Kernel.vectorCount (k : Kernel) : Nat :=
  k.m_interrupts.length

/-- The hook sequence registered on vector `vec` (empty when out of range,
matching a never-touched slot). -/
def Kernel.slot (k : Kernel) (vec : Nat) : List InterruptHook :=
  k.m_interrupts.getD vec []

/-- Modelled from the spec: the constructor `Kernel::Kernel` (declared
Kernel.h line 107, body not under src/).  Spec §4.1: construction initializes
the allocator, process manager, API set and interrupt-controller handles and
"allocates the Interrupt Hook Table sized to the architecture's vector count,
all slots empty". -/
def Kernel.construct (vectorCount alloc procs api intControl : Nat) : Kernel :=
  { m_alloc := alloc
    m_procs := procs
    m_api := api
    m_interrupts := List.replicate vectorCount []
    m_intControl := intControl }

/-- Modelled from the spec: `Kernel::hookIntVector` (declared Kernel.h
lines 162-169, body not under src/).  Spec §4.2: appends `{handler, param}`
to the sequence at index `vec`; an out-of-range `vec` is a programmer error
rejected as a no-op (the hardened-build policy), never a write outside the
table. -/
def Kernel.hookIntVector (k : Kernel) (vec : Nat) (h : InterruptHandler)
    (p : Nat) : Kernel :=
  if vec < k.m_interrupts.length then
    { k with m_interrupts :=
        k.m_interrupts.set vec (k.m_interrupts.getD vec [] ++ [⟨h, p⟩]) }
  else
    k

/-- Modelled from the spec: `Kernel::executeIntVector` (declared Kernel.h
lines 171-177, body not under src/).  Spec §4.2: looks up the hook sequence
for `vec`; if empty it invokes nothing; otherwise it invokes every hook in
registration order, each receiving the captured CPU state and its stored
parameter; it mutates no kernel state.  The first component is the ordered
invocation trace, the second the kernel state afterwards. -/
def Kernel.executeIntVector (k : Kernel) (vec : Nat) (s : CPUState) :
    List Invocation × Kernel :=
  ((k.m_interrupts.getD vec []).map (fun hk => ⟨hk.handler, hk.param, s⟩), k)

/-- A sequence of `hookIntVector` calls `(vec, handler, param)` applied in
order, as performed during serialized subsystem initialization (spec §4.2). -/
def Kernel.applyHooks (k : Kernel) : List (Nat × Nat × Nat) → Kernel
  | [] => k
  | (v, h, p) :: rest => (k.hookIntVector v h p).applyHooks rest

/-- Modelled from the spec: a boot-image program descriptor (spec §6: "a
table of fixed-format program descriptors, each with at least
`{offset, size, entryPoint}`").  The flag `malformed` records whether
`loadBootProcess` fails on this descriptor (spec §4.3: "Any sub-step failure
(bad descriptor, mapping failure, allocator exhaustion) yields
`ProcessError`"). -/
structure BootDescriptor where
  offset : Nat
  size : Nat
  entryPoint : Nat
  malformed : Bool
deriving DecidableEq, Repr

/-- Modelled from the spec: the boot image (spec §6: "header carrying a
validation token, followed by a table of ... program descriptors").
`validToken` records whether the token/checksum validation succeeds. -/
structure BootImage where
  validToken : Bool
  descriptors : List BootDescriptor
deriving DecidableEq, Repr

/-- A process-creation request issued to the process manager: the program's
entry point and size taken from its descriptor (spec §4.3). -/
structure CreateRequest where
  entryPoint : Nat
  size : Nat
deriving DecidableEq, Repr

/-- The request built from a descriptor. -/
def BootDescriptor.request (d : BootDescriptor) : CreateRequest :=
  { entryPoint := d.entryPoint, size := d.size }

/-- Modelled from the spec: `Kernel::loadBootProcess` (declared Kernel.h
lines 186-193, body not under src/).  Spec §4.3: reads the descriptor at
`index`, computes the program's physical location from `imagePAddr` plus the
descriptor's offset, and requests process creation with the program's entry
point and memory layout; a bad descriptor yields `ProcessError` and no
request.  Returns the result code and the (zero or one) requests issued. -/
def Kernel.loadBootProcess (image : BootImage) (imagePAddr index : Nat) :
    Kernel.Result × List CreateRequest :=
  match image.descriptors.get? index with
  | none => (.ProcessError, [])
  | some d =>
      if d.malformed then (.ProcessError, [])
      else (.Success, [d.request])

/-- Modelled from the spec: the descriptor loop of `Kernel::loadBootImage`
(spec §4.3): iterate the descriptor table in order, index `0..K-1`, invoking
`loadBootProcess` for each; fail-fast, the first `ProcessError` aborts
processing of remaining descriptors and is returned.  `remaining` counts the
loop iterations left (`K - index`).  Returns the result code, the ordered
requests issued, and the ordered indices on which `loadBootProcess` ran. -/
def Kernel.loadBootSteps (image : BootImage) (imagePAddr : Nat) :
    Nat → Nat → Kernel.Result × List CreateRequest × List Nat
  | 0, _ => (.Success, [], [])
  | remaining + 1, index =>
      match Kernel.loadBootProcess image imagePAddr index with
      | (.Success, reqs) =>
          let rest := Kernel.loadBootSteps image imagePAddr remaining (index + 1)
          (rest.1, reqs ++ rest.2.1, index :: rest.2.2)
      | (r, _) => (r, [], [index])

/-- Modelled from the spec: `Kernel::loadBootImage` (declared Kernel.h
lines 179-182, body not under src/).  Spec §4.3: validates the image's
token; invalid → returns `InvalidBootImage` immediately with zero
process-creation attempts; valid → runs the fail-fast descriptor loop. -/
def Kernel.loadBootImage (image : BootImage) (imagePAddr : Nat) :
    Kernel.Result × List CreateRequest × List Nat :=
  if image.validToken then
    Kernel.loadBootSteps image imagePAddr image.descriptors.length 0
  else
    (.InvalidBootImage, [], [])

/-- Modelled from the spec: a memory range `{start, end}` (spec §3,
inclusive span; the C++ field `end` is rendered `stop`). -/
structure MemRange where
  start : Nat
  stop : Nat
deriving DecidableEq, Repr

/-- The allocator-arena state touched by `Kernel::heap`: whether a heap
arena has been designated and its bounds. -/
structure HeapState where
  initialized : Bool
  heapBase : Nat
  heapSize : Nat
deriving DecidableEq, Repr

/-- True iff `[base, base+size)` overlaps the inclusive range `r`. -/
def MemRange.overlaps (r : MemRange) (base size : Nat) : Bool :=
  base ≤ r.stop && r.start < base + size

/-- True iff `[base, base+size)` lies within the inclusive range `r`. -/
def MemRange.contains (r : MemRange) (base size : Nat) : Bool :=
  r.start ≤ base && base + size ≤ r.stop + 1

/-- Modelled from the spec: `Kernel::heap` (declared Kernel.h line 119, body
not under src/).  Spec §4.1: constraints `size > 0`, `[base, base+size)` must
not overlap the kernel's own static image range, and must lie within the
total-RAM range; any violation fails the precondition check (nonzero error
code) before any mutation; on success the arena is recorded.  Returns the
error code (`Zero on success or error code on failure`, Kernel.h line 117)
and the allocator state afterwards. -/
def Kernel.heap (kernelRange ramRange : MemRange) (st : HeapState)
    (base size : Nat) : Nat × HeapState :=
  if size == 0 then (1, st)
  else if kernelRange.overlaps base size then (1, st)
  else if !(ramRange.contains base size) then (1, st)
  else (0, { initialized := true, heapBase := base, heapSize := size })

/-- Modelled from the spec: the integer status observable from
`Kernel::run` (declared Kernel.h line 152, body not under src/).  Spec §4.1:
`run()` invokes boot-image loading and on failure "halts and yields an
integer status suitable for a hosted/test environment to observe as exit
code"; the status is the `Result` code's integer value. -/
def Kernel.runStatus (image : BootImage) (imagePAddr : Nat) : Nat :=
  (Kernel.loadBootImage image imagePAddr).1.toNat

/-- A concrete 3-descriptor boot image whose index-1 descriptor is malformed
(spec §8: "Given a 3-descriptor image where descriptor index 1 is
malformed"). -/
def bootImage3 : BootImage :=
  { validToken := true
    descriptors :=
      [ { offset := 0, size := 10, entryPoint := 4096, malformed := false }
      , { offset := 10, size := 20, entryPoint := 8192, malformed := true }
      , { offset := 30, size := 5, entryPoint := 12288, malformed := false } ] }

/-! ## Helper lemmas about the hook table -/

theorem Kernel.vectorCount_hookIntVector (k : Kernel) (vec h p : Nat) :
    (k.hookIntVector vec h p).vectorCount = k.vectorCount := by
  unfold Kernel.hookIntVector Kernel.vectorCount
  split <;> simp

theorem Kernel.vectorCount_construct (n a b c d : Nat) :
    (Kernel.construct n a b c d).vectorCount = n := by
  simp [Kernel.construct, Kernel.vectorCount]

theorem Kernel.slot_construct (n a b c d v : Nat) :
    (Kernel.construct n a b c d).slot v = [] := by
  unfold Kernel.construct Kernel.slot
  simp only [List.getD, List.get?_eq_getElem?, List.getElem?_replicate]
  split <;> rfl

theorem Kernel.slot_hookIntVector_self (k : Kernel) (v h p : Nat)
    (hv : v < k.vectorCount) :
    (k.hookIntVector v h p).slot v = k.slot v ++ [⟨h, p⟩] := by
  unfold Kernel.vectorCount at hv
  unfold Kernel.hookIntVector Kernel.slot
  simp only [if_pos hv]
  simp [List.getD, List.getElem?_set_self, hv]

theorem Kernel.slot_hookIntVector_ne (k : Kernel) (w v h p : Nat)
    (hne : w ≠ v) :
    (k.hookIntVector w h p).slot v = k.slot v := by
  unfold Kernel.hookIntVector Kernel.slot
  split
  · simp [List.getD, List.getElem?_set_ne hne]
  · rfl

theorem Kernel.executeIntVector_trace (k : Kernel) (vec : Nat) (s : CPUState) :
    (k.executeIntVector vec s).1 =
      (k.slot vec).map (fun hk => ⟨hk.handler, hk.param, s⟩) := rfl

theorem Kernel.executeIntVector_state (k : Kernel) (vec : Nat) (s : CPUState) :
    (k.executeIntVector vec s).2 = k := rfl

theorem Kernel.slot_applyHooks (regs : List (Nat × Nat × Nat)) (k : Kernel)
    (v : Nat) (hv : v < k.vectorCount) :
    (k.applyHooks regs).slot v =
      k.slot v ++
        (regs.filter (fun r => r.1 == v)).map (fun r => ⟨r.2.1, r.2.2⟩) := by
  induction regs generalizing k with
  | nil => simp [Kernel.applyHooks]
  | cons r rest ih =>
    obtain ⟨w, h, p⟩ := r
    show ((k.hookIntVector w h p).applyHooks rest).slot v = _
    rw [ih (k.hookIntVector w h p)
      (by rw [Kernel.vectorCount_hookIntVector]; exact hv)]
    by_cases hwv : w = v
    · subst hwv
      rw [Kernel.slot_hookIntVector_self k w h p hv]
      simp [List.filter_cons]
    · rw [Kernel.slot_hookIntVector_ne k w v h p hwv]
      simp [List.filter_cons, hwv]

/-! ## Helper lemmas about boot-image loading -/

theorem Kernel.loadBootSteps_all_ok (image : BootImage) (paddr : Nat)
    (hok : ∀ d ∈ image.descriptors, d.malformed = false) :
    ∀ remaining index, index + remaining = image.descriptors.length →
    Kernel.loadBootSteps image paddr remaining index =
      (.Success, (image.descriptors.drop index).map BootDescriptor.request,
       List.range' index remaining) := by
  intro remaining
  induction remaining with
  | zero =>
    intro index hlen
    have hge : image.descriptors.length ≤ index := by omega
    simp [Kernel.loadBootSteps, List.drop_eq_nil_of_le hge, List.range']
  | succ m ih =>
    intro index hlen
    have hidx : index < image.descriptors.length := by omega
    have hget : image.descriptors.get? index =
        some (image.descriptors.get ⟨index, hidx⟩) := List.get?_eq_get hidx
    have hmal : (image.descriptors.get ⟨index, hidx⟩).malformed = false :=
      hok _ (List.get_mem _ _ _)
    have hrest := ih (index + 1) (by omega)
    simp only [Kernel.loadBootSteps, Kernel.loadBootProcess, hget, hmal,
      Bool.false_eq_true, if_false, hrest]
    have hdrop : image.descriptors.drop index =
        image.descriptors.get ⟨index, hidx⟩ :: image.descriptors.drop (index + 1) :=
      List.drop_eq_getElem_cons hidx
    rw [hdrop]
    simp [List.range'_succ index m 1]
    rw [List.drop_eq_getElem_cons
      (show index < (image.descriptors.map BootDescriptor.request).length by
        simpa using hidx)]
    simp

theorem Kernel.loadBootSteps_fail_at (image : BootImage) (paddr : Nat)
    (j : Nat) (dj : BootDescriptor)
    (hj : image.descriptors.get? j = some dj) (hjmal : dj.malformed = true)
    (hbefore : ∀ (m : Nat) (d : BootDescriptor),
      image.descriptors.get? m = some d → m < j → d.malformed = false) :
    ∀ remaining index, index + remaining = image.descriptors.length →
    index ≤ j →
    Kernel.loadBootSteps image paddr remaining index =
      (.ProcessError,
       ((image.descriptors.drop index).take (j - index)).map BootDescriptor.request,
       List.range' index (j - index + 1)) := by
  have hjlt : j < image.descriptors.length := by
    rcases List.get?_eq_some.mp hj with ⟨hlt, _⟩
    exact hlt
  intro remaining
  induction remaining with
  | zero =>
    intro index hlen hle
    omega
  | succ m ih =>
    intro index hlen hle
    have hidx : index < image.descriptors.length := by omega
    have hget : image.descriptors.get? index =
        some (image.descriptors.get ⟨index, hidx⟩) := List.get?_eq_get hidx
    by_cases hij : index = j
    · subst hij
      have hdj : image.descriptors.get ⟨index, hidx⟩ = dj := by
        rw [hget] at hj
        exact Option.some.inj hj
      simp only [Kernel.loadBootSteps, Kernel.loadBootProcess, hget, hdj, hjmal,
        if_true, Nat.sub_self]
      simp [List.range']
    · have hlt : index < j := by omega
      have hmal : (image.descriptors.get ⟨index, hidx⟩).malformed = false :=
        hbefore index _ hget hlt
      have hrest := ih (index + 1) (by omega) (by omega)
      simp only [Kernel.loadBootSteps, Kernel.loadBootProcess, hget, hmal,
        Bool.false_eq_true, if_false, hrest]
      have hdrop : image.descriptors.drop index =
          image.descriptors.get ⟨index, hidx⟩ :: image.descriptors.drop (index + 1) :=
        List.drop_eq_getElem_cons hidx
      rw [hdrop]
      have hsub : j - index = (j - (index + 1)) + 1 := by omega
      rw [hsub, List.take_succ_cons]
      simp only [List.map_cons, List.singleton_append,
        List.range'_succ index (j - (index + 1) + 1) 1]

/-! ## Claim theorems: interrupt hook registry and dispatch -/

/-- C1: for every vector `v` below the architecture's vector count, every
handler `h`, parameter `p` and CPU state `s`, calling `hookIntVector(v, h, p)`
on a freshly constructed Kernel and then `executeIntVector(v, s)` invokes `h`
exactly once, with parameter `p` and CPU state `s`: the invocation trace is
exactly `[(h, p, s)]`. -/
theorem hook_then_fire_invokes_once (n a b c d v h p : Nat) (s : CPUState)
    (hv : v < n) :
    ((((Kernel.construct n a b c d).hookIntVector v h p).executeIntVector v s).1)
      = [⟨h, p, s⟩] := by
  rw [Kernel.executeIntVector_trace,
    Kernel.slot_hookIntVector_self _ _ _ _
      (by rw [Kernel.vectorCount_construct]; exact hv),
    Kernel.slot_construct]
  rfl

/-- Witness for C1: vector 2 of a 16-vector kernel, handler 5, parameter 6,
CPU state 7. -/
theorem hook_then_fire_invokes_once_witness :
    ((((Kernel.construct 16 1 2 3 4).hookIntVector 2 5 6).executeIntVector 2 7).1)
      = [⟨5, 6, 7⟩] :=
  hook_then_fire_invokes_once 16 1 2 3 4 2 5 6 7 (by decide)

/-- C5: registering `(h1, p1)` then `(h2, p2)` on the same valid vector `v`
and then firing it invokes `h1` strictly before `h2`; in general, after any
sequence of registrations on a fresh kernel, `executeIntVector` invokes the
hooks of a vector in exactly their registration (insertion) order. -/
theorem hooks_dispatch_in_registration_order :
    (∀ (n a b c d v h1 p1 h2 p2 : Nat) (s : CPUState), v < n →
      ((((Kernel.construct n a b c d).hookIntVector v h1 p1).hookIntVector
          v h2 p2).executeIntVector v s).1
        = [⟨h1, p1, s⟩, ⟨h2, p2, s⟩]) ∧
    (∀ (n a b c d v : Nat) (s : CPUState) (regs : List (Nat × Nat × Nat)),
      v < n →
      (((Kernel.construct n a b c d).applyHooks regs).executeIntVector v s).1
        = (regs.filter (fun r => r.1 == v)).map
            (fun r => ⟨r.2.1, r.2.2, s⟩)) := by
  constructor
  · intro n a b c d v h1 p1 h2 p2 s hv
    have hv1 : v < (Kernel.construct n a b c d).vectorCount := by
      rw [Kernel.vectorCount_construct]; exact hv
    have hv2 : v <
        ((Kernel.construct n a b c d).hookIntVector v h1 p1).vectorCount := by
      rw [Kernel.vectorCount_hookIntVector]; exact hv1
    rw [Kernel.executeIntVector_trace,
      Kernel.slot_hookIntVector_self _ _ _ _ hv2,
      Kernel.slot_hookIntVector_self _ _ _ _ hv1,
      Kernel.slot_construct]
    rfl
  · intro n a b c d v s regs hv
    rw [Kernel.executeIntVector_trace,
      Kernel.slot_applyHooks regs _ v
        (by rw [Kernel.vectorCount_construct]; exact hv),
      Kernel.slot_construct]
    simp only [List.nil_append, List.map_map]
    rfl

/-- Witness for C5: handlers 10 then 20 registered on vector 3 of an
8-vector kernel fire in that order. -/
theorem hooks_dispatch_in_registration_order_witness :
    ((((Kernel.construct 8 0 0 0 0).hookIntVector 3 10 11).hookIntVector
        3 20 21).executeIntVector 3 9).1
      = [⟨10, 11, 9⟩, ⟨20, 21, 9⟩] :=
  hooks_dispatch_in_registration_order.1 8 0 0 0 0 3 10 11 20 21 9 (by decide)

/-- C6: for a vector argument at or above the vector count, `hookIntVector`
rejects the call as a no-op: the kernel is unchanged, no write outside the
hook table occurs, and no vector's hook sequence is modified. -/
theorem hookIntVector_out_of_range_rejected (k : Kernel) (vec h p : Nat)
    (hvec : k.vectorCount ≤ vec) :
    k.hookIntVector vec h p = k ∧
    ∀ w, (k.hookIntVector vec h p).slot w = k.slot w := by
  have hout : ¬ vec < k.m_interrupts.length := by
    unfold Kernel.vectorCount at hvec; omega
  constructor
  · unfold Kernel.hookIntVector
    simp [hout]
  · intro w
    unfold Kernel.hookIntVector
    simp [hout]

/-- Witness for C6: vector 9 on a 4-vector kernel is rejected without any
change to the kernel. -/
theorem hookIntVector_out_of_range_rejected_witness :
    (Kernel.construct 4 1 2 3 4).hookIntVector 9 5 6 = Kernel.construct 4 1 2 3 4 ∧
    ∀ w, ((Kernel.construct 4 1 2 3 4).hookIntVector 9 5 6).slot w =
      (Kernel.construct 4 1 2 3 4).slot w :=
  hookIntVector_out_of_range_rejected (Kernel.construct 4 1 2 3 4) 9 5 6
    (by decide)

/-- C8: firing a vector whose hook sequence is empty invokes no handler and
leaves every Kernel-owned field (hook table, allocator, process manager and
API handles) unchanged. -/
theorem executeIntVector_empty_vector_noop (k : Kernel) (vec : Nat)
    (s : CPUState) (hempty : k.slot vec = []) :
    (k.executeIntVector vec s).1 = [] ∧ (k.executeIntVector vec s).2 = k := by
  refine ⟨?_, rfl⟩
  rw [Kernel.executeIntVector_trace, hempty]
  rfl

/-- Witness for C8: firing empty vector 2 of a fresh 4-vector kernel. -/
theorem executeIntVector_empty_vector_noop_witness :
    ((Kernel.construct 4 1 2 3 4).executeIntVector 2 9).1 = [] ∧
    ((Kernel.construct 4 1 2 3 4).executeIntVector 2 9).2 =
      Kernel.construct 4 1 2 3 4 :=
  executeIntVector_empty_vector_noop (Kernel.construct 4 1 2 3 4) 2 9
    (by decide)

/-- C9: duplicate registrations are preserved, not deduplicated: registering
the same `(h, p)` twice on valid vector `v` and then firing it invokes `h`
exactly twice, once per registration, even though the two stored hooks
compare equal under `InterruptHook::operator==`. -/
theorem duplicate_hooks_preserved (n a b c d v h p : Nat) (s : CPUState)
    (hv : v < n) :
    ((((Kernel.construct n a b c d).hookIntVector v h p).hookIntVector
        v h p).executeIntVector v s).1
      = [⟨h, p, s⟩, ⟨h, p, s⟩] ∧
    InterruptHook.eq ⟨h, p⟩ ⟨h, p⟩ = true := by
  constructor
  · have hv1 : v < (Kernel.construct n a b c d).vectorCount := by
      rw [Kernel.vectorCount_construct]; exact hv
    have hv2 : v <
        ((Kernel.construct n a b c d).hookIntVector v h p).vectorCount := by
      rw [Kernel.vectorCount_hookIntVector]; exact hv1
    rw [Kernel.executeIntVector_trace,
      Kernel.slot_hookIntVector_self _ _ _ _ hv2,
      Kernel.slot_hookIntVector_self _ _ _ _ hv1,
      Kernel.slot_construct]
    rfl
  · simp [InterruptHook.eq]

/-- Witness for C9: handler 5 with parameter 6 registered twice on vector 1
of an 8-vector kernel fires twice. -/
theorem duplicate_hooks_preserved_witness :
    ((((Kernel.construct 8 0 0 0 0).hookIntVector 1 5 6).hookIntVector
        1 5 6).executeIntVector 1 7).1
      = [⟨5, 6, 7⟩, ⟨5, 6, 7⟩] ∧
    InterruptHook.eq ⟨5, 6⟩ ⟨5, 6⟩ = true :=
  duplicate_hooks_preserved 8 0 0 0 0 1 5 6 7 (by decide)

/-! ## Claim theorems: boot image loading -/

/-- C2: for every well-formed boot image (valid token, no malformed
descriptor) with `K` descriptors, `loadBootImage` issues exactly `K`
process-creation requests, one per descriptor in table order, each using
that descriptor's recorded entry point and size, and returns `Success`. -/
theorem loadBootImage_wellformed_creates_all (image : BootImage)
    (paddr : Nat) (htok : image.validToken = true)
    (hok : ∀ d ∈ image.descriptors, d.malformed = false) :
    Kernel.loadBootImage image paddr =
      (.Success, image.descriptors.map BootDescriptor.request,
       List.range image.descriptors.length) := by
  unfold Kernel.loadBootImage
  simp only [htok, if_true]
  rw [Kernel.loadBootSteps_all_ok image paddr hok image.descriptors.length 0
    (by omega)]
  simp [List.range_eq_range']

/-- Witness for C2: a valid 2-descriptor image creates both processes with
their recorded entry points and sizes. -/
theorem loadBootImage_wellformed_creates_all_witness :
    Kernel.loadBootImage
      { validToken := true
        descriptors :=
          [ { offset := 0, size := 4, entryPoint := 100, malformed := false }
          , { offset := 4, size := 8, entryPoint := 200, malformed := false } ] }
      0 =
      (.Success,
       ([ { offset := 0, size := 4, entryPoint := 100, malformed := false }
        , { offset := 4, size := 8, entryPoint := 200, malformed := false } ] :
          List BootDescriptor).map BootDescriptor.request,
       List.range ([ { offset := 0, size := 4, entryPoint := 100, malformed := false }
        , { offset := 4, size := 8, entryPoint := 200, malformed := false } ] :
          List BootDescriptor).length) :=
  loadBootImage_wellformed_creates_all _ 0 rfl (by decide)

/-- C3: `loadBootImage` is fail-fast: when descriptor `i` is the first
malformed one (every earlier descriptor loads successfully), descriptors
after `i` are never processed and `ProcessError` is returned — the requests
are exactly those of descriptors `0..i-1` and `loadBootProcess` runs exactly
on indices `0..i`.  In particular, on the 3-descriptor image `bootImage3`
whose index-1 descriptor is malformed, exactly one successful
process-creation request is issued (for index 0), `ProcessError` is
returned, and index 2 is never processed. -/
theorem loadBootImage_fail_fast :
    (∀ (image : BootImage) (paddr i : Nat) (di : BootDescriptor),
      image.validToken = true →
      image.descriptors.get? i = some di →
      di.malformed = true →
      (∀ (m : Nat) (d : BootDescriptor),
        image.descriptors.get? m = some d → m < i → d.malformed = false) →
      Kernel.loadBootImage image paddr =
        (.ProcessError,
         (image.descriptors.take i).map BootDescriptor.request,
         List.range (i + 1))) ∧
    (Kernel.loadBootImage bootImage3 0 =
       (.ProcessError, [{ entryPoint := 4096, size := 10 }], [0, 1]) ∧
     2 ∉ (Kernel.loadBootImage bootImage3 0).2.2) := by
  constructor
  · intro image paddr i di htok hget hmal hbefore
    unfold Kernel.loadBootImage
    simp only [htok, if_true]
    rw [Kernel.loadBootSteps_fail_at image paddr i di hget hmal hbefore
      image.descriptors.length 0 (by omega) (by omega)]
    simp [List.range_eq_range']
  · constructor
    · decide
    · decide

/-- C4: for every boot image whose validation token fails the check,
`loadBootImage` returns `InvalidBootImage`, issues zero process-creation
requests, and never invokes `loadBootProcess`. -/
theorem loadBootImage_invalid_token (image : BootImage) (paddr : Nat)
    (htok : image.validToken = false) :
    Kernel.loadBootImage image paddr = (.InvalidBootImage, [], []) := by
  unfold Kernel.loadBootImage
  simp [htok]

/-- Witness for C4: an image with a failing token and one (well-formed)
descriptor creates nothing. -/
theorem loadBootImage_invalid_token_witness :
    Kernel.loadBootImage
      { validToken := false
        descriptors :=
          [ { offset := 0, size := 4, entryPoint := 100, malformed := false } ] }
      0 = (.InvalidBootImage, [], []) :=
  loadBootImage_invalid_token _ 0 rfl

/-! ## Claim theorems: heap precondition checks and result codes -/

/-- C7: `heap(base, 0)` fails its precondition check, and `heap(base, size)`
fails whenever `[base, base+size)` overlaps the kernel's reserved image
range; in both failure cases the returned error code is nonzero and the
allocator state is unchanged. -/
theorem heap_rejects_invalid_range (kernelRange ramRange : MemRange)
    (st : HeapState) (base size : Nat)
    (hover : kernelRange.overlaps base size = true) :
    ((Kernel.heap kernelRange ramRange st base 0).1 ≠ 0 ∧
     (Kernel.heap kernelRange ramRange st base 0).2 = st) ∧
    ((Kernel.heap kernelRange ramRange st base size).1 ≠ 0 ∧
     (Kernel.heap kernelRange ramRange st base size).2 = st) := by
  refine ⟨⟨?_, ?_⟩, ?_⟩
  · simp [Kernel.heap]
  · simp [Kernel.heap]
  · by_cases hsz : size = 0
    · subst hsz
      exact ⟨by simp [Kernel.heap], by simp [Kernel.heap]⟩
    · have hszb : (size == 0) = false := by simp [hsz]
      exact ⟨by simp [Kernel.heap, hszb, hover],
             by simp [Kernel.heap, hszb, hover]⟩

/-- Witness for C7: kernel image range `[100, 200]`, RAM `[0, 1000]`,
requested arena `[150, 160)` overlapping the kernel image. -/
theorem heap_rejects_invalid_range_witness :
    ((Kernel.heap ⟨100, 200⟩ ⟨0, 1000⟩ ⟨false, 0, 0⟩ 150 0).1 ≠ 0 ∧
     (Kernel.heap ⟨100, 200⟩ ⟨0, 1000⟩ ⟨false, 0, 0⟩ 150 0).2 = ⟨false, 0, 0⟩) ∧
    ((Kernel.heap ⟨100, 200⟩ ⟨0, 1000⟩ ⟨false, 0, 0⟩ 150 10).1 ≠ 0 ∧
     (Kernel.heap ⟨100, 200⟩ ⟨0, 1000⟩ ⟨false, 0, 0⟩ 150 10).2 = ⟨false, 0, 0⟩) :=
  heap_rejects_invalid_range ⟨100, 200⟩ ⟨0, 1000⟩ ⟨false, 0, 0⟩ 150 10
    (by decide)

/-- C10: the three `Kernel::Result` codes are pairwise distinct, their C++
integer values are `Success = 0`, `InvalidBootImage = 1`,
`ProcessError = 2`, `Success` is the unique code of value zero, and an
integer status of 0 observed from `run()` denotes a successful boot while
any nonzero status denotes a boot failure. -/
theorem result_codes_distinct_success_zero :
    (Kernel.Result.Success.toNat = 0 ∧
     Kernel.Result.InvalidBootImage.toNat = 1 ∧
     Kernel.Result.ProcessError.toNat = 2) ∧
    (Kernel.Result.Success ≠ Kernel.Result.InvalidBootImage ∧
     Kernel.Result.Success ≠ Kernel.Result.ProcessError ∧
     Kernel.Result.InvalidBootImage ≠ Kernel.Result.ProcessError) ∧
    (∀ r : Kernel.Result, r.toNat = 0 ↔ r = Kernel.Result.Success) ∧
    (∀ (image : BootImage) (paddr : Nat),
      Kernel.runStatus image paddr = 0 ↔
        (Kernel.loadBootImage image paddr).1 = Kernel.Result.Success) := by
  refine ⟨⟨rfl, rfl, rfl⟩, ⟨by decide, by decide, by decide⟩, ?_, ?_⟩
  · intro r
    cases r <;> simp [Kernel.Result.toNat]
  · intro image paddr
    unfold Kernel.runStatus
    cases hres : (Kernel.loadBootImage image paddr).1 <;>
      simp [Kernel.Result.toNat]
